import Mathlib

/-!
Shallow embedding of `BacSpecies.py` (BacSpecies v1.0).

Strings are modelled as `List Char` (`Str`), so that the character-level
operations of the source (`find`, `split`, slicing, concatenation) are
explicit.  Python runtime errors (`IndexError`, `KeyError`, `ValueError`,
`ZeroDivisionError`) are modelled with `Except PyError`.  Python `float`
values are modelled as rationals `ℚ`.
-/

namespace BacSpecies

/-- Model of a Python `str` at character level. -/
abbrev Str := List Char

/-- The Python runtime errors that the source can raise while processing data. -/
inductive PyError where
  | indexError : PyError
  | keyError : Str → PyError
  | valueError : PyError
  | zeroDivisionError : PyError
  deriving DecidableEq, Repr

/-- Convert an `Option` to an `Except`, raising `e` on `none`
(models a fallible Python subscript / conversion). -/
def exceptOf (e : PyError) : Option α → Except PyError α
  | some a => .ok a
  | none => .error e

/-!
## `line_iterator` (source lines 94-102)

```python
def line_iterator(line_breaks):
    line = -1
    while True:
        nextline = line_breaks.find('\n', line + 1)
        if nextline < 0:
            break
        yield line_breaks[line + 1:nextline]
        line = nextline
```

The loop yields, for each `'\n'` of the input in order, the segment of
characters since the previous `'\n'` (exclusive); the fragment after the
last `'\n'` is never yielded.  The structural recursion below computes the
same list: a leading `'\n'` closes the (empty) current segment, any other
leading character is prepended onto the first segment of the rest, and a
suffix containing no `'\n'` produces nothing.
-/
def line_iterator : Str → List Str
  | [] => []
  | c :: cs =>
    if c = '\n' then [] :: line_iterator cs
    else
      match line_iterator cs with
      | [] => []
      | l :: ls => (c :: l) :: ls

lemma splitOn_ne_nil (a : α) [DecidableEq α] (l : List α) : l.splitOn a ≠ [] :=
  List.splitOnP_ne_nil _ l

lemma line_iterator_eq_dropLast_splitOn (s : Str) :
    line_iterator s = (s.splitOn '\n').dropLast := by
  induction s with
  | nil => rfl
  | cons c cs ih =>
    rw [List.splitOn] at *
    rw [List.splitOnP_cons]
    by_cases hc : c = '\n'
    · subst hc
      simp only [line_iterator, if_pos rfl, beq_self_eq_true, if_true]
      rw [ih]
      obtain ⟨a, l, h⟩ : ∃ a l, cs.splitOnP (· == '\n') = a :: l := by
        cases h : cs.splitOnP (· == '\n') with
        | nil => exact absurd h (List.splitOnP_ne_nil _ cs)
        | cons a l => exact ⟨a, l, rfl⟩
      rw [h]
      cases l with
      | nil => simp
      | cons b m => simp
    · have hbeq : (c == '\n') = false := beq_false_of_ne hc
      simp only [line_iterator, if_neg hc, hbeq, if_false]
      obtain ⟨a, l, h⟩ : ∃ a l, cs.splitOnP (· == '\n') = a :: l := by
        cases h : cs.splitOnP (· == '\n') with
        | nil => exact absurd h (List.splitOnP_ne_nil _ cs)
        | cons a l => exact ⟨a, l, rfl⟩
      rw [h] at ih ⊢
      cases l with
      | nil =>
        simp only [List.dropLast_single] at ih
        rw [ih]
        simp
      | cons b m =>
        simp only [List.dropLast_cons₂] at ih
        rw [ih]
        simp [List.modifyHead]

/-!
## Number parsing (Python `int(...)` and `float(...)` on BLAST fields)

Only the well-formed decimal forms the aligner emits are modelled
(`digits`, `-digits`, `digits.digits`, `-digits.digits`); any other string
is a `ValueError`, as in Python.
-/

/-- Value of a nonempty all-digit string, `none` otherwise. -/
def digitsVal (l : Str) : Option ℕ :=
  if l ≠ [] ∧ l.all Char.isDigit then
    some (l.foldl (fun a c => 10 * a + (c.toNat - 48)) 0)
  else none

/-- Python `int(s)` on the strings the aligner emits. -/
def pyInt : Str → Option ℤ
  | '-' :: r => (digitsVal r).map fun n => -(n : ℤ)
  | l => (digitsVal l).map fun n => (n : ℤ)

/-- Python `float(s)` (as a rational) on a nonnegative decimal string. -/
def pyFloatNonneg (l : Str) : Option ℚ :=
  match l.splitOn '.' with
  | [w] => (digitsVal w).map fun n => (n : ℚ)
  | [w, f] =>
    match digitsVal w, digitsVal f with
    | some a, some b => some ((a : ℚ) + (b : ℚ) / (10 : ℚ) ^ f.length)
    | _, _ => none
  | _ => none

/-- Python `float(s)` on the strings the aligner emits. -/
def pyFloat : Str → Option ℚ
  | '-' :: r => (pyFloatNonneg r).map Neg.neg
  | l => pyFloatNonneg l

/-!
## `BlastResult` (source lines 104-111)

```python
class BlastResult(object):
    def __init__(self, hit_string):
        parts = hit_string.split('\t')
        self.qseqid = parts[0]
        self.length = int(parts[8])
        self.pident = float(parts[9])
        self.query_cov = 100.0 * len(parts[11]) / float(parts[10])
```

Field accesses and conversions happen in Python's evaluation order:
`parts[0]`, `int(parts[8])`, `float(parts[9])`, then `len(parts[11])`
before `float(parts[10])`, then the division (ZeroDivisionError if
`float(parts[10])` is zero).
-/
structure BlastResult where
  qseqid : Str
  length : ℤ
  pident : ℚ
  query_cov : ℚ
  deriving DecidableEq, Repr

def BlastResult.ofParts (parts : List Str) : Except PyError BlastResult := do
  let q ← exceptOf .indexError (parts.get? 0)
  let lenS ← exceptOf .indexError (parts.get? 8)
  let len ← exceptOf .valueError (pyInt lenS)
  let pidS ← exceptOf .indexError (parts.get? 9)
  let pid ← exceptOf .valueError (pyFloat pidS)
  let qseqS ← exceptOf .indexError (parts.get? 11)
  let qlenS ← exceptOf .indexError (parts.get? 10)
  let qlen ← exceptOf .valueError (pyFloat qlenS)
  if qlen = 0 then .error .zeroDivisionError
  else .ok ⟨q, len, pid, 100 * (qseqS.length : ℚ) / qlen⟩

/-- One hit line: split on tabs, then build the record. -/
def BlastResult.ofLine (l : Str) : Except PyError BlastResult :=
  BlastResult.ofParts (l.splitOn '\t')

/-!
## The reference dictionary (Python `dict`)

Modelled as an association list whose keys are unique by construction:
insertion replaces an existing binding in place, otherwise appends
(Python's insertion-order semantics); lookup finds the first (hence only)
binding.
-/
abbrev Db := List (Str × Str)

def dictInsert (db : Db) (k v : Str) : Db :=
  if db.any fun p => p.1 = k then
    db.map fun p => if p.1 = k then (k, v) else p
  else db ++ [(k, v)]

def dictFind? (db : Db) (k : Str) : Option Str :=
  (db.find? fun p => p.1 = k).map Prod.snd

/-!
## Best-match scan (source lines 79-92)

```python
    best_match = []
    best_cov = 0.0
    best_pident = 0.0
    for hit in blast_hits:
        if hit.length < 1000:
            continue
        elif hit.pident >= best_pident and hit.query_cov >= best_cov:
            best_pident = hit.pident
            best_cov = hit.query_cov
            if database[hit.qseqid] in best_match:
                continue
            else:
                best_match.append(database[hit.qseqid])
    return best_match
```
-/
structure ScanState where
  best_pident : ℚ
  best_cov : ℚ
  best_match : List Str
  deriving DecidableEq, Repr

def select_step (db : Db) (st : ScanState) (hit : BlastResult) :
    Except PyError ScanState :=
  if hit.length < 1000 then .ok st
  else if st.best_pident ≤ hit.pident ∧ st.best_cov ≤ hit.query_cov then
    match dictFind? db hit.qseqid with
    | none => .error (.keyError hit.qseqid)
    | some name =>
      .ok ⟨hit.pident, hit.query_cov,
           if name ∈ st.best_match then st.best_match
           else st.best_match ++ [name]⟩
  else .ok st

/-- The selector's scan over an already-parsed hit list. -/
def get_best_match (db : Db) (hits : List BlastResult) :
    Except PyError (List Str) :=
  (hits.foldlM (select_step db) ⟨0, 0, []⟩).map ScanState.best_match

/-- `get_best_result` (source lines 62-92) after the external `blastn`
call: `out` is the raw captured standard output; every line is parsed into
a `BlastResult` first, then the scan runs. -/
def get_best_result (db : Db) (out : Str) : Except PyError (List Str) := do
  let hits ← (line_iterator out).mapM BlastResult.ofLine
  get_best_match db hits

/-!
## Spec-side description of the scan (for the refinement claim C1)

`spec_scan` follows the specification text line by line: a single
left-to-right scan starting from `best_identity = 0`, `best_coverage = 0`,
`matches = []`; hits of alignment length below 1000 are skipped; a hit not
regressing on both identity and coverage updates both bests and appends
its resolved species name unless already present; all other hits leave the
state unchanged; `matches` is returned.
-/
def spec_scan (resolve : Str → Str) :
    List BlastResult → ℚ → ℚ → List Str → List Str
  | [], _, _, ms => ms
  | h :: t, bestId, bestCov, ms =>
    if h.length < 1000 then spec_scan resolve t bestId bestCov ms
    else if bestId ≤ h.pident ∧ bestCov ≤ h.query_cov then
      spec_scan resolve t h.pident h.query_cov
        (if resolve h.qseqid ∈ ms then ms else ms ++ [resolve h.qseqid])
    else spec_scan resolve t bestId bestCov ms

def spec_selector (resolve : Str → Str) (hits : List BlastResult) : List Str :=
  spec_scan resolve hits 0 0 []

lemma foldlM_select_step_eq_spec_scan (db : Db) (resolve : Str → Str)
    (hits : List BlastResult)
    (hres : ∀ h ∈ hits, dictFind? db h.qseqid = some (resolve h.qseqid)) :
    ∀ st : ScanState,
      (hits.foldlM (select_step db) st).map ScanState.best_match =
        .ok (spec_scan resolve hits st.best_pident st.best_cov st.best_match) := by
  induction hits with
  | nil => intro st; rw [List.foldlM_nil]; rfl
  | cons h t ih =>
    intro st
    have hh : dictFind? db h.qseqid = some (resolve h.qseqid) :=
      hres h (List.mem_cons_self h t)
    have ht : ∀ x ∈ t, dictFind? db x.qseqid = some (resolve x.qseqid) :=
      fun x hx => hres x (List.mem_cons_of_mem h hx)
    rw [List.foldlM_cons, spec_scan]
    by_cases hlen : h.length < 1000
    · rw [if_pos hlen]
      have : select_step db st h = .ok st := by rw [select_step, if_pos hlen]
      rw [this]
      exact ih ht st
    · rw [if_neg hlen]
      by_cases hok : st.best_pident ≤ h.pident ∧ st.best_cov ≤ h.query_cov
      · rw [if_pos hok]
        have : select_step db st h =
            .ok ⟨h.pident, h.query_cov,
                 if resolve h.qseqid ∈ st.best_match then st.best_match
                 else st.best_match ++ [resolve h.qseqid]⟩ := by
          rw [select_step, if_neg hlen, if_pos hok, hh]
        rw [this]
        exact ih ht _
      · rw [if_neg hok]
        have : select_step db st h = .ok st := by
          rw [select_step, if_neg hlen, if_neg hok]
        rw [this]
        exact ih ht st

/-!
## Accepted-hit bookkeeping (for the invariant claim C9)
-/

/-- The append-unless-present update applied to `best_match`. -/
def insert_name (ms : List Str) (n : Str) : List Str :=
  if n ∈ ms then ms else ms ++ [n]

/-- The species names of the hits the scan accepts (passes both the length
filter and the non-regression test), in scan order, duplicates kept. -/
def accepted_names (db : Db) : List BlastResult → ℚ → ℚ → List Str
  | [], _, _ => []
  | h :: t, bestId, bestCov =>
    if h.length < 1000 then accepted_names db t bestId bestCov
    else if bestId ≤ h.pident ∧ bestCov ≤ h.query_cov then
      (dictFind? db h.qseqid).getD [] ::
        accepted_names db t h.pident h.query_cov
    else accepted_names db t bestId bestCov

/-- Keep the first occurrence of every name, in order. -/
def dedup_first (l : List Str) : List Str := l.foldl insert_name []

lemma except_ok_bind (a : α) (f : α → Except ε β) :
    (Except.ok a >>= f) = f a := rfl

lemma except_error_bind (e : ε) (f : α → Except ε β) :
    ((Except.error e : Except ε α) >>= f) = .error e := rfl

lemma foldlM_select_step_best_match (db : Db) (hits : List BlastResult) :
    ∀ (st r : ScanState), hits.foldlM (select_step db) st = .ok r →
      r.best_match =
        (accepted_names db hits st.best_pident st.best_cov).foldl
          insert_name st.best_match := by
  induction hits with
  | nil =>
    intro st r h
    rw [List.foldlM_nil] at h
    cases h
    rfl
  | cons h t ih =>
    intro st r hfold
    rw [List.foldlM_cons] at hfold
    rw [accepted_names]
    by_cases hlen : h.length < 1000
    · rw [if_pos hlen]
      rw [show select_step db st h = .ok st from by rw [select_step, if_pos hlen],
          except_ok_bind] at hfold
      exact ih st r hfold
    · rw [if_neg hlen]
      by_cases hok : st.best_pident ≤ h.pident ∧ st.best_cov ≤ h.query_cov
      · rw [if_pos hok]
        cases hfind : dictFind? db h.qseqid with
        | none =>
          rw [show select_step db st h = .error (.keyError h.qseqid) from by
                rw [select_step, if_neg hlen, if_pos hok, hfind],
              except_error_bind] at hfold
          exact absurd hfold (by simp)
        | some name =>
          rw [show select_step db st h =
                .ok ⟨h.pident, h.query_cov, insert_name st.best_match name⟩ from by
                  rw [select_step, if_neg hlen, if_pos hok, hfind]; rfl,
              except_ok_bind] at hfold
          rw [ih _ r hfold]
          simp [List.foldl_cons]
      · rw [if_neg hok]
        rw [show select_step db st h = .ok st from by
              rw [select_step, if_neg hlen, if_neg hok],
            except_ok_bind] at hfold
        exact ih st r hfold

lemma insert_name_nodup {ms : List Str} (n : Str) (h : ms.Nodup) :
    (insert_name ms n).Nodup := by
  unfold insert_name
  split
  · exact h
  · next hn => simp [List.nodup_append, h, hn]

lemma foldl_insert_name_nodup (l : List Str) :
    ∀ ms : List Str, ms.Nodup → (l.foldl insert_name ms).Nodup := by
  induction l with
  | nil => intro ms h; exact h
  | cons n t ih =>
    intro ms h
    rw [List.foldl_cons]
    exact ih _ (insert_name_nodup n h)

lemma char_toNat_digits :
    ('0'.toNat : ℕ) = 48 ∧ ('1'.toNat : ℕ) = 49 ∧ ('2'.toNat : ℕ) = 50 ∧
    ('9'.toNat : ℕ) = 57 := ⟨rfl, rfl, rfl, rfl⟩

lemma splitOn_eq_single {sep : Char} {l : Str} (h : sep ∉ l) :
    l.splitOn sep = [l] := by
  rw [List.splitOn]
  refine List.splitOnP_eq_single _ _ fun x hx => ?_
  simp only [beq_iff_eq]
  rintro rfl
  exact h hx

lemma splitOn_sep_append {sep : Char} {t : Str} (rest : Str) (h : sep ∉ t) :
    (t ++ sep :: rest).splitOn sep = t :: rest.splitOn sep := by
  rw [List.splitOn, List.splitOn]
  refine List.splitOnP_first _ t ?_ sep (by simp) rest
  intro x hx
  simp only [beq_iff_eq]
  rintro rfl
  exact h hx

/-!
## `process_reference` (source lines 47-60)

```python
def process_reference(refs):
    database = {}
    with open(refs, 'rt') as file:
        for line in file:
            if line.startswith('>'):
                line = line[1:]
                info = line.split(' ')
                id = info[0]
                name = info[1] + ' ' + info[2]
                database[id] = name
            else:
                continue
    return database
```

Python file iteration yields each line with its trailing `'\n'` kept (the
last line may lack one); `info[1]` / `info[2]` raise `IndexError` when the
header has fewer than 3 space-separated tokens.  `info[0]` always exists
because `split` never returns an empty list.
-/

/-- Split a file's contents into Python iteration lines: each `'\n'`-terminated
segment keeps its terminator; a nonempty final fragment is kept as-is. -/
def pythonLines : Str → List Str
  | [] => []
  | c :: cs =>
    if c = '\n' then [c] :: pythonLines cs
    else
      match pythonLines cs with
      | [] => [[c]]
      | l :: ls => (c :: l) :: ls

/-- Process one line of the reference file into the database. -/
def process_reference_line (db : Db) (line : Str) : Except PyError Db :=
  if line.head? = some '>' then
    let info := line.tail.splitOn ' '
    match info.get? 1, info.get? 2 with
    | some t1, some t2 => .ok (dictInsert db (info.headD []) (t1 ++ ' ' :: t2))
    | _, _ => .error .indexError
  else .ok db

/-- Build the reference database from the file's contents. -/
def process_reference (contents : Str) : Except PyError Db :=
  (pythonLines contents).foldlM process_reference_line []

/-!
## Python equality between values of different types (for line 70)

```python
    out = process.stdout.decode()
    if out == 0:
        print('The sequence file ... has no blast hit, please check the fasta file')
```

`out` is a `str`; comparing a `str` to the `int` `0` in Python is always
`False` (no exception, no coercion), so the branch is dead.
-/
inductive PyVal where
  | vstr : Str → PyVal
  | vint : ℤ → PyVal

/-- Python `==` across `str` and `int` values. -/
def pyEq : PyVal → PyVal → Bool
  | .vstr a, .vstr b => a == b
  | .vint a, .vint b => a == b
  | _, _ => false

/-- The condition of the no-hit message in `get_best_result`
(source line 70): `out == 0` with `out` the decoded standard output. -/
def no_hit_message_emitted (out : Str) : Bool :=
  pyEq (.vstr out) (.vint 0)

/-!
## `generate_output` and `output` (source lines 113-139)

The output table is modelled as `Option Str`: `none` when the file does not
exist, `some contents` otherwise.
-/
def headers : List Str :=
  ["Sequence".data, "Best_match".data, "Problems".data,
   "Extra informations".data]

def header_line : Str :=
  List.intercalate "\t".data headers ++ "\n".data

/-- `generate_output`: write the header only when the file does not exist. -/
def generate_output : Option Str → Option Str
  | some contents => some contents
  | none => some header_line

/-- The row of columns `output` writes for one input file. -/
def output_line (best_match : List Str) (inputfile : Str) : List Str :=
  match best_match with
  | [m] => [inputfile, m]
  | [] => [inputfile, "NA".data, "Unavailable".data]
  | m :: rest => [inputfile, m, "Multiple results".data] ++ rest

/-- The one-line summary `output` prints for one input file. -/
def simple_output (best_match : List Str) (inputfile : Str) : Str :=
  match best_match with
  | [m] => inputfile ++ ": ".data ++ m
  | [] => inputfile ++ ": ".data ++ "Unavailable".data
  | _ :: _ => inputfile ++ ": ".data ++
      "Multiple results, please check the output file".data

/-- Appending one row to the output table (`'\t'.join(line)` plus `'\n'`,
in append mode). -/
def append_row (table : Str) (row : List Str) : Str :=
  table ++ List.intercalate "\t".data row ++ "\n".data

/-!
## The driver loop over input files (source lines 150-153)

```python
    for inputfile in args.input:
        best_match = get_best_result(inputfile, args.refs, args.threads, database)
        output(args.outdir, best_match, inputfile)
```

There is no exception handling around the loop body, so the first raised
error ends the loop (and the program): rows already written stay, and no
later file is processed.  Each input file is modelled by its name together
with the raw standard output its alignment invocation produces; the result
is the list of rows written plus the error that ended the run, if any.
-/
def main_loop (db : Db) : List (Str × Str) → List (List Str) × Option PyError
  | [] => ([], none)
  | (inputfile, out) :: rest =>
    match get_best_result db out with
    | .error e => ([], some e)
    | .ok best_match =>
      let (rows, err) := main_loop db rest
      (output_line best_match inputfile :: rows, err)

end BacSpecies

namespace BacSpecies

/-- C2: the hit parser's line iterator yields exactly the newline-separated
segments of the input (the standard split on `'\n'`) with the final
unterminated fragment dropped; a fragment with no trailing newline is never
yielded, and the empty string yields no records. -/
theorem c2_line_iterator_spec :
    (∀ s : Str, line_iterator s = (s.splitOn '\n').dropLast) ∧
    (∀ s : Str, '\n' ∉ s → line_iterator s = []) ∧
    line_iterator ([] : Str) = [] := by
  refine ⟨line_iterator_eq_dropLast_splitOn, ?_, rfl⟩
  intro s hs
  rw [line_iterator_eq_dropLast_splitOn]
  rw [List.splitOn, List.splitOnP_eq_single]
  · rfl
  · intro x hx
    simp only [beq_iff_eq]
    intro h
    exact hs (h ▸ hx)

/-- Witness for C2's hypothesis-bearing conjunct at a concrete input. -/
theorem c2_line_iterator_spec_witness :
    line_iterator ("abc".data) = [] :=
  c2_line_iterator_spec.2.1 "abc".data (by decide)

/-- C1: for every hit list and reference index in which every hit's query
id resolves, the Best-Match Selector returns exactly the list produced by
the specification's single left-to-right scan starting from
`best_identity = 0`, `best_coverage = 0`, `matches = []`: hits with
alignment length below 1000 are skipped, a hit not regressing on both
identity and coverage updates both bests and appends its resolved species
name unless already present, all other hits leave the state unchanged, and
`matches` is returned. -/
theorem c1_selector_matches_spec_scan (db : Db) (hits : List BlastResult)
    (resolve : Str → Str)
    (hres : ∀ h ∈ hits, dictFind? db h.qseqid = some (resolve h.qseqid)) :
    get_best_match db hits = .ok (spec_selector resolve hits) := by
  rw [get_best_match, spec_selector]
  exact foldlM_select_step_eq_spec_scan db resolve hits hres ⟨0, 0, []⟩

/-- Witness for C1 at a concrete database and hit list. -/
theorem c1_selector_matches_spec_scan_witness :
    get_best_match [("X".data, "A B".data)]
        [⟨"X".data, 1200, 2, 3⟩] =
      .ok (spec_selector (fun _ => "A B".data) [⟨"X".data, 1200, 2, 3⟩]) :=
  c1_selector_matches_spec_scan _ _ _ (by decide)

/-- C9: whenever the selector's scan completes, its result has no repeated
species name and equals the first-occurrence deduplication of the accepted
hits' names in scan order (the order their supporting hits were first
accepted, not sorted by score). -/
theorem c9_result_nodup_and_first_accept_order (db : Db)
    (hits : List BlastResult) (ms : List Str)
    (h : get_best_match db hits = .ok ms) :
    ms.Nodup ∧ ms = dedup_first (accepted_names db hits 0 0) := by
  rw [get_best_match] at h
  cases hfold : hits.foldlM (select_step db) (⟨0, 0, []⟩ : ScanState) with
  | error e =>
    rw [hfold] at h
    exact absurd h (by simp [Except.map])
  | ok r =>
    rw [hfold] at h
    have hms : r.best_match = ms := by simpa [Except.map] using h
    have hchar := foldlM_select_step_best_match db hits _ r hfold
    rw [hms] at hchar
    refine ⟨?_, ?_⟩
    · rw [hchar]
      exact foldl_insert_name_nodup _ _ List.nodup_nil
    · simpa [dedup_first] using hchar

/-- Witness for C9 at a concrete database and hit list. -/
theorem c9_result_nodup_and_first_accept_order_witness :
    (["A B".data] : List Str).Nodup ∧
      ["A B".data] = dedup_first
        (accepted_names [("X".data, "A B".data)]
          [⟨"X".data, 1200, 2, 3⟩] 0 0) :=
  c9_result_nodup_and_first_accept_order
    [("X".data, "A B".data)] [⟨"X".data, 1200, 2, 3⟩] ["A B".data] (by rfl)

/-- C3 counterexample: the first input file's alignment output contains a
hit line with fewer than 12 tab-delimited fields; the driver loop then
reports no row at all — in particular none for the second input file —
although the second file alone is processed and reported.  The uncaught
error is not isolated to the failing file. -/
theorem c3_counterexample :
    main_loop [("X".data, "A B".data)]
        [("f1".data, "x\ty\n".data),
         ("f2".data, "X\ts\t1\t2\t3\t4\t0.0\t50\t1200\t99.9\t100\tAC\n".data)] =
      ([], some .indexError) ∧
    main_loop [("X".data, "A B".data)]
        [("f2".data, "X\ts\t1\t2\t3\t4\t0.0\t50\t1200\t99.9\t100\tAC\n".data)] =
      ([["f2".data, "A B".data]], none) := by
  refine ⟨rfl, ?_⟩
  obtain ⟨pid, cov, hparse, h1, h2⟩ :
      ∃ pid cov : ℚ,
        ((line_iterator
            "X\ts\t1\t2\t3\t4\t0.0\t50\t1200\t99.9\t100\tAC\n".data).mapM
            BlastResult.ofLine =
          .ok [⟨"X".data, 1200, pid, cov⟩]) ∧ (0:ℚ) ≤ pid ∧ (0:ℚ) ≤ cov :=
    ⟨_, _, rfl, by norm_num [char_toNat_digits.1, char_toNat_digits.2.1,
        char_toNat_digits.2.2.1, char_toNat_digits.2.2.2],
      by norm_num [char_toNat_digits.1, char_toNat_digits.2.1,
        char_toNat_digits.2.2.1, char_toNat_digits.2.2.2]⟩
  rw [main_loop, get_best_result]
  rw [hparse, except_ok_bind]
  rw [get_best_match, List.foldlM_cons,
      show select_step [("X".data, "A B".data)] ⟨0, 0, []⟩
            ⟨"X".data, 1200, pid, cov⟩ =
          .ok ⟨pid, cov, ["A B".data]⟩ from by
        rw [select_step, if_neg (by norm_num), if_pos ⟨h1, h2⟩]
        rfl,
      except_ok_bind, List.foldlM_nil]
  rfl

/-- C3 amended: an error while processing one input file (such as a
malformed hit record or a reference-index lookup miss) aborts the whole
remaining run: neither the failing file nor any subsequent input file
produces a row, while an error-free file contributes its row and passes
control to the rest of the list. -/
theorem c3_amended_error_aborts_rest (db : Db) (f out : Str)
    (rest : List (Str × Str)) :
    (∀ e, get_best_result db out = .error e →
        main_loop db ((f, out) :: rest) = ([], some e)) ∧
    (∀ bm, get_best_result db out = .ok bm →
        main_loop db ((f, out) :: rest) =
          (output_line bm f :: (main_loop db rest).1,
           (main_loop db rest).2)) := by
  constructor
  · intro e he
    simp [main_loop, he]
  · intro bm hbm
    simp [main_loop, hbm]

/-- Witness for C3's amended theorem at a concrete database and file list. -/
theorem c3_amended_error_aborts_rest_witness :
    main_loop [("X".data, "A B".data)]
        [("f1".data, "x\ty\n".data),
         ("f2".data, "X\ts\t1\t2\t3\t4\t0.0\t50\t1200\t99.9\t100\tAC\n".data)] =
      ([], some PyError.indexError) :=
  (c3_amended_error_aborts_rest [("X".data, "A B".data)] "f1".data
      "x\ty\n".data
      [("f2".data, "X\ts\t1\t2\t3\t4\t0.0\t50\t1200\t99.9\t100\tAC\n".data)]).1
    PyError.indexError (by rfl)

/-- C4: on empty alignment output the selector still runs and yields the
empty result, and the `Unavailable` row is still produced for the file —
but the logged no-hit message is never emitted, because the source tests
`out == 0`, a Python comparison of a `str` with an `int` that is always
false. -/
theorem c4_no_hit_message_dead_but_row_written (db : Db) (f : Str) :
    no_hit_message_emitted [] = false ∧
    (∀ out : Str, no_hit_message_emitted out = false) ∧
    get_best_result db [] = .ok [] ∧
    output_line [] f = [f, "NA".data, "Unavailable".data] ∧
    simple_output [] f = f ++ ": ".data ++ "Unavailable".data :=
  ⟨rfl, fun _ => rfl, rfl, rfl, rfl⟩

/-- C5: the Report Writer's row and printed summary per case of the
Best-Match Result: `[input, NA, Unavailable]` when empty, `[input, name]`
when a single name, and `[input, first, Multiple results, rest...]` when
more than one, each with its summary line. -/
theorem c5_report_rows (f m r : Str) (rest : List Str) :
    output_line [] f = [f, "NA".data, "Unavailable".data] ∧
    simple_output [] f = f ++ ": ".data ++ "Unavailable".data ∧
    output_line [m] f = [f, m] ∧
    simple_output [m] f = f ++ ": ".data ++ m ∧
    output_line (m :: r :: rest) f =
      [f, m, "Multiple results".data] ++ r :: rest ∧
    simple_output (m :: r :: rest) f =
      f ++ ": ".data ++ "Multiple results, please check the output file".data :=
  ⟨rfl, rfl, rfl, rfl, rfl, rfl⟩

/-- C7: for every parts list that parses into a hit record, the record's
query coverage equals exactly 100 times the length of the aligned-query-
sequence field (field 11, a string length) divided by the parsed value of
the query-total-length field (field 10), with no clamping; and on some
inputs the value exceeds 100. -/
theorem c7_query_cov_formula :
    (∀ (parts : List Str) (r : BlastResult),
        BlastResult.ofParts parts = .ok r →
        ∃ (qseqS qlenS : Str) (qlen : ℚ),
          parts.get? 11 = some qseqS ∧ parts.get? 10 = some qlenS ∧
          pyFloat qlenS = some qlen ∧ qlen ≠ 0 ∧
          r.query_cov = 100 * (qseqS.length : ℚ) / qlen) ∧
    (∃ (parts : List Str) (r : BlastResult),
        BlastResult.ofParts parts = .ok r ∧ 100 < r.query_cov) := by
  constructor
  · intro parts r h
    rw [BlastResult.ofParts] at h
    cases h0 : parts.get? 0 with
    | none => rw [h0] at h; simp [exceptOf, except_error_bind] at h
    | some q =>
    rw [h0] at h
    simp only [exceptOf, except_ok_bind] at h
    cases h8 : parts.get? 8 with
    | none => rw [h8] at h; simp [exceptOf, except_error_bind] at h
    | some lenS =>
    rw [h8] at h
    simp only [exceptOf, except_ok_bind] at h
    cases hint : pyInt lenS with
    | none => rw [hint] at h; simp [exceptOf, except_error_bind] at h
    | some len =>
    rw [hint] at h
    simp only [exceptOf, except_ok_bind] at h
    cases h9 : parts.get? 9 with
    | none => rw [h9] at h; simp [exceptOf, except_error_bind] at h
    | some pidS =>
    rw [h9] at h
    simp only [exceptOf, except_ok_bind] at h
    cases hpid : pyFloat pidS with
    | none => rw [hpid] at h; simp [exceptOf, except_error_bind] at h
    | some pid =>
    rw [hpid] at h
    simp only [exceptOf, except_ok_bind] at h
    cases h11 : parts.get? 11 with
    | none => rw [h11] at h; simp [exceptOf, except_error_bind] at h
    | some qseqS =>
    rw [h11] at h
    simp only [exceptOf, except_ok_bind] at h
    cases h10 : parts.get? 10 with
    | none => rw [h10] at h; simp [exceptOf, except_error_bind] at h
    | some qlenS =>
    rw [h10] at h
    simp only [exceptOf, except_ok_bind] at h
    cases hqlen : pyFloat qlenS with
    | none => rw [hqlen] at h; simp [exceptOf, except_error_bind] at h
    | some qlen =>
    rw [hqlen] at h
    simp only [exceptOf, except_ok_bind] at h
    by_cases hz : qlen = 0
    · rw [if_pos hz] at h
      simp at h
    · rw [if_neg hz] at h
      rw [Except.ok.injEq] at h
      subst h
      exact ⟨qseqS, qlenS, qlen, rfl, rfl, hqlen, hz, rfl⟩
  · obtain ⟨pid, cov, hok, hgt⟩ :
        ∃ pid cov : ℚ,
          BlastResult.ofParts
              ["X".data, "s".data, "1".data, "2".data, "3".data, "4".data,
               "0.0".data, "50".data, "1200".data, "99.9".data, "1".data,
               "AC".data] =
            .ok ⟨"X".data, 1200, pid, cov⟩ ∧ (100:ℚ) < cov :=
      ⟨_, _, rfl, by norm_num [char_toNat_digits.2.1]⟩
    exact ⟨_, _, hok, hgt⟩

/-- Witness for C7's first conjunct at a concrete parts list. -/
theorem c7_query_cov_formula_witness :
    ∃ r, BlastResult.ofParts
        ["X".data, "s".data, "1".data, "2".data, "3".data, "4".data,
         "0.0".data, "50".data, "1200".data, "99.9".data, "1".data,
         "AC".data] = .ok r ∧
      ∃ (qseqS qlenS : Str) (qlen : ℚ),
        (["X".data, "s".data, "1".data, "2".data, "3".data, "4".data,
          "0.0".data, "50".data, "1200".data, "99.9".data, "1".data,
          "AC".data] : List Str).get? 11 = some qseqS ∧
        (["X".data, "s".data, "1".data, "2".data, "3".data, "4".data,
          "0.0".data, "50".data, "1200".data, "99.9".data, "1".data,
          "AC".data] : List Str).get? 10 = some qlenS ∧
        pyFloat qlenS = some qlen ∧ qlen ≠ 0 ∧
        r.query_cov = 100 * (qseqS.length : ℚ) / qlen := by
  obtain ⟨r, hok⟩ :
      ∃ r, BlastResult.ofParts
          ["X".data, "s".data, "1".data, "2".data, "3".data, "4".data,
           "0.0".data, "50".data, "1200".data, "99.9".data, "1".data,
           "AC".data] = .ok r := ⟨_, rfl⟩
  exact ⟨r, hok, c7_query_cov_formula.1 _ r hok⟩

/-- C6: output-table creation is idempotent: the 4-column header is
written only when the file does not exist, an existing file is never
rewritten, and appending rows then re-running table creation leaves the
appended table untouched (no duplicated header). -/
theorem c6_header_written_once (c : Str) (row : List Str) :
    headers.length = 4 ∧
    generate_output none = some header_line ∧
    generate_output (some c) = some c ∧
    generate_output (generate_output (some c)) = generate_output (some c) ∧
    generate_output (some (append_row c row)) = some (append_row c row) :=
  ⟨rfl, rfl, rfl, rfl, rfl⟩

/-- C8: the Reference Index is built line by line: a line not starting
with the FASTA marker leaves the mapping unchanged; a marker line is
stripped of the marker and split on single spaces, token 0 becomes the
key and tokens 1 and 2 joined by one space become the stored species
name; a marker line with fewer than 3 tokens is an error; and the whole
file is the left fold of this step over its lines. -/
theorem c8_reference_index (db : Db) (line : Str) :
    (line.head? ≠ some '>' → process_reference_line db line = .ok db) ∧
    (∀ t0 t1 t2 rest, line.head? = some '>' →
        line.tail.splitOn ' ' = t0 :: t1 :: t2 :: rest →
        process_reference_line db line =
          .ok (dictInsert db t0 (t1 ++ ' ' :: t2))) ∧
    (line.head? = some '>' → (line.tail.splitOn ' ').length < 3 →
        process_reference_line db line = .error .indexError) ∧
    (∀ contents : Str, process_reference contents =
        (pythonLines contents).foldlM process_reference_line []) := by
  refine ⟨?_, ?_, ?_, fun _ => rfl⟩
  · intro h
    rw [process_reference_line, if_neg h]
  · intro t0 t1 t2 rest hh hsplit
    rw [process_reference_line, if_pos hh]
    simp only [hsplit]
    rfl
  · intro hh hlen
    rw [process_reference_line, if_pos hh]
    cases hinfo : line.tail.splitOn ' ' with
    | nil => rfl
    | cons a l =>
      cases l with
      | nil => rfl
      | cons b m =>
        cases m with
        | nil => rfl
        | cons c k =>
          rw [hinfo] at hlen
          simp only [List.length_cons] at hlen
          omega

/-- Witness for C8 at concrete reference lines. -/
theorem c8_reference_index_witness :
    process_reference_line [] "ACGT\n".data = .ok [] ∧
    process_reference_line [] ">X A B C\n".data =
      .ok (dictInsert [] "X".data ("A".data ++ ' ' :: "B".data)) ∧
    process_reference_line [] ">X A\n".data = .error .indexError :=
  ⟨(c8_reference_index [] "ACGT\n".data).1 (by decide),
   (c8_reference_index [] ">X A B C\n".data).2.1 "X".data "A".data "B".data
     ["C\n".data] (by decide) (by decide),
   (c8_reference_index [] ">X A\n".data).2.2.1 (by decide) (by decide)⟩

/-- C10: a FASTA header line with exactly three space-separated tokens
and a terminating newline stores a species name that still ends with that
newline character (the line is split without stripping its terminator),
while a header line with four or more tokens stores a newline-free
species name. -/
theorem c10_species_name_keeps_newline (db : Db) (t0 t1 t2 rest : Str)
    (h0 : ' ' ∉ t0) (h1 : ' ' ∉ t1) (h2 : ' ' ∉ t2) :
    (process_reference_line db
          ('>' :: (t0 ++ (' ' :: (t1 ++ (' ' :: (t2 ++ ['\n'])))))) =
        .ok (dictInsert db t0 (t1 ++ (' ' :: (t2 ++ ['\n'])))) ∧
      (t1 ++ (' ' :: (t2 ++ ['\n']))).getLast? = some '\n') ∧
    ('\n' ∉ t1 → '\n' ∉ t2 →
      process_reference_line db
          ('>' :: (t0 ++ (' ' :: (t1 ++ (' ' :: (t2 ++ (' ' :: rest))))))) =
        .ok (dictInsert db t0 (t1 ++ (' ' :: t2))) ∧
      '\n' ∉ t1 ++ (' ' :: t2)) := by
  have h2n : ' ' ∉ t2 ++ ['\n'] := by
    simp only [List.mem_append, List.mem_singleton]
    rintro (hx | hx)
    · exact h2 hx
    · exact absurd hx (by decide)
  refine ⟨⟨?_, ?_⟩, ?_⟩
  · rw [process_reference_line]
    simp only [List.head?_cons]
    rw [if_pos trivial]
    simp only [List.tail_cons, splitOn_sep_append _ h0, splitOn_sep_append _ h1,
      splitOn_eq_single h2n]
    rfl
  · rw [show t1 ++ (' ' :: (t2 ++ ['\n'])) = (t1 ++ (' ' :: t2)) ++ ['\n'] by simp,
      List.getLast?_concat]
  · intro hn1 hn2
    constructor
    · rw [process_reference_line]
      simp only [List.head?_cons]
      rw [if_pos trivial]
      simp only [List.tail_cons, splitOn_sep_append _ h0,
        splitOn_sep_append _ h1, splitOn_sep_append _ h2]
      rfl
    · simp only [List.mem_append, List.mem_cons]
      rintro (hx | hx | hx)
      · exact hn1 hx
      · exact absurd hx (by decide)
      · exact hn2 hx

/-- Witness for C10 at a concrete header line. -/
theorem c10_species_name_keeps_newline_witness :
    process_reference_line [] ">X Escherichia coli\n".data =
      .ok (dictInsert [] "X".data "Escherichia coli\n".data) ∧
    ("Escherichia coli\n".data).getLast? = some '\n' := by
  have h := (c10_species_name_keeps_newline [] "X".data "Escherichia".data
      "coli".data [] (by decide) (by decide) (by decide)).1
  exact h

end BacSpecies
